import Mathlib

/-!
Verification of the voice-recorder capture/encode pipeline.

The development shallowly embeds the web-worker body found in the
record-worker source (state variables recLength, recBuffers, sampleRate,
numChannels; functions init, record, exportWav, clear, buffersTo16BitPCM,
writeString, encodeWav and the onmessage dispatcher) and the callback
bookkeeping of the recording service (the exportWav callback stack pushed
by stopRecording and popped by the worker message handler).

Modelling conventions:
- Amplitude samples are JS numbers; they are modelled as rationals, with
  exact arithmetic.  The DataView setInt16 conversion (truncate toward
  zero, then wrap modulo 2 to the 16) is modelled by jsTrunc and i16le.
- A DataView over an ArrayBuffer of 44 + recLength * 2 zero-initialised
  bytes, written left to right, is modelled as the byte list produced in
  write order; a write past the end of the buffer raises a RangeError in
  JS, which is modelled by encodeWav returning none.
- The worker processes its message queue strictly sequentially in FIFO
  arrival order; this is modelled by folding the dispatcher over the list
  of messages in send order.
-/

namespace VoiceRecorder

/-- Truncation toward zero of a rational, as performed by the JS
ToIntegerOrInfinity step of DataView.setInt16. -/
def jsTrunc (q : ℚ) : ℤ := if 0 ≤ q then ⌊q⌋ else ⌈q⌉

/-- The clamp performed per sample in buffersTo16BitPCM:
Math.max(-1, Math.min(1, s)). -/
def clampSample (s : ℚ) : ℚ := max (-1) (min 1 s)

/-- The 16-bit value computed for one sample: clamp, multiply by 0x7FFF,
then the setInt16 integer conversion (truncation toward zero). -/
def toInt16 (s : ℚ) : ℤ := jsTrunc (clampSample s * 32767)

/-- Little-endian byte pair stored by setInt16 with littleEndian = true:
the integer is wrapped modulo 65536 and emitted low byte first. -/
def i16le (v : ℤ) : List ℕ := [(v % 65536).toNat % 256, (v % 65536).toNat / 256]

/-- buffersTo16BitPCM(output, offset, input): the two nested loops walk the
frames in arrival order and the samples of each frame in array order,
appending the two bytes of each converted sample.  The bytes written to the
DataView are modelled as the produced byte list. -/
def buffersTo16BitPCM (input : List (List ℚ)) : List ℕ :=
  input.foldl (fun out frame =>
    frame.foldl (fun out2 s => out2 ++ i16le (toInt16 s)) out) []

/-- writeString(view, offset, string): one setUint8 per character with its
char code (wrapped modulo 256 by setUint8). -/
def writeString (str : String) : List ℕ := str.toList.map fun c => c.toNat % 256

/-- The two bytes stored by setUint16 with littleEndian = true. -/
def u16le (n : ℕ) : List ℕ := [n % 256, n / 256 % 256]

/-- The four bytes stored by setUint32 with littleEndian = true. -/
def u32le (n : ℕ) : List ℕ :=
  [n % 256, n / 256 % 256, n / 65536 % 256, n / 16777216 % 256]

/-- Total sample count of a list of frames. -/
def totalLen (frames : List (List ℚ)) : ℕ := (frames.map List.length).sum

/-- encodeWav(recBuffers, recLength): allocates an ArrayBuffer of
44 + recLength * 2 zero bytes and writes, in offset order, the RIFF header
fields exactly as in the source (note offset 28 receives sampleRate * 4)
followed by the PCM data at offset 44.  If the PCM data would overrun the
buffer the JS setInt16 raises a RangeError, modelled as none; if it is
shorter than recLength * 2 the remaining bytes stay zero. -/
def encodeWav (recBuffers : List (List ℚ)) (recLength sampleRate numChannels : ℕ) :
    Option (List ℕ) :=
  if (buffersTo16BitPCM recBuffers).length ≤ recLength * 2 then
    some (writeString "RIFF" ++
      u32le (36 + recLength * 2) ++
      writeString "WAVE" ++
      writeString "fmt " ++
      u32le 16 ++
      u16le 1 ++
      u16le numChannels ++
      u32le sampleRate ++
      u32le (sampleRate * 4) ++
      u16le (numChannels * 2) ++
      u16le 16 ++
      writeString "data" ++
      u32le (recLength * 2) ++
      buffersTo16BitPCM recBuffers ++
      List.replicate (recLength * 2 - (buffersTo16BitPCM recBuffers).length) 0)
  else none

/-- The config object sent with the init command. -/
structure RecConfig where
  sampleRate : ℕ
  numChannels : ℕ

/-- The worker-local state: recLength, recBuffers, and the two config
values.  The source leaves sampleRate and numChannels undefined until init;
the model starts them at 0 (JS setUint32 stores 0 for undefined). -/
structure WorkerState where
  recLength : ℕ
  recBuffers : List (List ℚ)
  sampleRate : ℕ
  numChannels : ℕ

/-- A message posted to the worker: a string command tag plus the payload
fields read by the handlers (the source service always sends the field the
command reads; unread fields default). -/
structure WMessage where
  command : String
  config : RecConfig := { sampleRate := 0, numChannels := 0 }
  buffer : List ℚ := []
  type : String := ""

/-- The message the worker posts back from exportWav: command tag,
the encoded bytes and the mime type of the blob. -/
structure ExportMessage where
  command : String
  data : List ℕ
  type : String

/-- init(config). -/
def init (s : WorkerState) (config : RecConfig) : WorkerState :=
  { s with sampleRate := config.sampleRate, numChannels := config.numChannels }

/-- record(inputBuffer): push the frame and add its length to recLength. -/
def record (s : WorkerState) (inputBuffer : List ℚ) : WorkerState :=
  { s with recBuffers := s.recBuffers ++ [inputBuffer],
           recLength := s.recLength + inputBuffer.length }

/-- clear(): reset recLength to 0 and recBuffers to the empty list. -/
def clear (s : WorkerState) : WorkerState :=
  { s with recLength := 0, recBuffers := [] }

/-- exportWav(type): encode the current buffers and post the blob; returns
none when encodeWav raises (in which case nothing is posted). -/
def exportWav (s : WorkerState) (type : String) : Option ExportMessage :=
  (encodeWav s.recBuffers s.recLength s.sampleRate s.numChannels).map
    fun bytes => { command := "exportWav", data := bytes, type := type }

/-- The onmessage switch: dispatch on the string command tag; a tag that
matches no case falls through the switch and does nothing. -/
def onmessage (s : WorkerState) (msg : WMessage) : WorkerState × Option ExportMessage :=
  if msg.command = "init" then (init s msg.config, none)
  else if msg.command = "record" then (record s msg.buffer, none)
  else if msg.command = "exportWav" then (s, exportWav s msg.type)
  else if msg.command = "clear" then (clear s, none)
  else (s, none)

/-- The worker consumes its FIFO message queue strictly sequentially:
delivery order equals send order, and the posted responses are collected in
processing order. -/
def runWorker : WorkerState → List WMessage → WorkerState × List ExportMessage
  | s, [] => (s, [])
  | s, m :: ms =>
    ((runWorker (onmessage s m).1 ms).1,
      (onmessage s m).2.toList ++ (runWorker (onmessage s m).1 ms).2)

/-- Worker state at creation: recLength = 0, recBuffers = []. -/
def initialWorker : WorkerState :=
  { recLength := 0, recBuffers := [], sampleRate := 0, numChannels := 0 }

/-- The message posted by the service for the init command. -/
def initMsg (cfg : RecConfig) : WMessage := { command := "init", config := cfg }

/-- The message posted by the service for each captured frame. -/
def recordMsg (buf : List ℚ) : WMessage := { command := "record", buffer := buf }

/-- The message posted by stopRecording to request the export. -/
def exportMsg (t : String) : WMessage := { command := "exportWav", type := t }

/-- The message posted by clearWorker. -/
def clearMsg : WMessage := { command := "clear" }

/-- The accumulator invariant: recLength equals the sum of the lengths of
the frames currently held. -/
def accInvariant (s : WorkerState) : Prop := s.recLength = totalLen s.recBuffers

/-- Events observable at the recording service: a stopRecording call
(identified by a request id for its promise) and a worker exportWav
response (identified by a blob id).  The worker answers export requests in
FIFO order, so in an event list the k-th response carries the blob produced
for the k-th outstanding request. -/
inductive ServiceEvent where
  | stopCall (reqId : ℕ)
  | workerResponse (blobId : ℕ)

/-- The service-side bookkeeping of record.service.ts: the exportWav
callback array (stopRecording pushes at the end, the message handler pops
from the end), the log of commands posted to the worker, the deliveries
performed (which request callback received which blob), and any signalled
errors.  stopRecording contains no state check and no error path, so no
event ever appends to errors. -/
structure ServiceState where
  exportCallbacks : List ℕ
  posted : List String
  delivered : List (ℕ × ℕ)
  errors : List String

/-- One service event: stopRecording pushes its resolve callback onto the
exportWav stack and posts an exportWav command; an incoming worker message
pops the most recently pushed callback and invokes it with the blob. -/
def serviceStep (s : ServiceState) : ServiceEvent → ServiceState
  | ServiceEvent.stopCall reqId =>
    { s with exportCallbacks := s.exportCallbacks ++ [reqId],
             posted := s.posted ++ ["exportWav"] }
  | ServiceEvent.workerResponse blobId =>
    match s.exportCallbacks.getLast? with
    | some cb =>
      { s with exportCallbacks := s.exportCallbacks.dropLast,
               delivered := s.delivered ++ [(cb, blobId)] }
    | none => s

/-- Fold the service bookkeeping over a sequence of events. -/
def runService (s : ServiceState) (events : List ServiceEvent) : ServiceState :=
  events.foldl serviceStep s

/-- Service state before any recording was started: empty callback stack,
nothing posted, nothing delivered, no errors. -/
def idleService : ServiceState :=
  { exportCallbacks := [], posted := [], delivered := [], errors := [] }

/-! Helper lemmas. -/

theorem i16le_length (v : ℤ) : (i16le v).length = 2 := rfl

theorem frame_foldl_pcm (frame : List ℚ) (acc : List ℕ) :
    frame.foldl (fun out2 s => out2 ++ i16le (toInt16 s)) acc
      = acc ++ (frame.map fun s => i16le (toInt16 s)).flatten := by
  induction frame generalizing acc with
  | nil => simp
  | cons a as ih =>
    simp only [List.foldl_cons, ih, List.map_cons, List.flatten_cons, List.append_assoc]

theorem buffersTo16BitPCM_flatten (input : List (List ℚ)) :
    buffersTo16BitPCM input = (input.flatten.map fun s => i16le (toInt16 s)).flatten := by
  suffices h : ∀ acc : List ℕ,
      input.foldl (fun out frame =>
        frame.foldl (fun out2 s => out2 ++ i16le (toInt16 s)) out) acc
        = acc ++ (input.flatten.map fun s => i16le (toInt16 s)).flatten by
    simpa [buffersTo16BitPCM] using h []
  induction input with
  | nil => simp
  | cons f fs ih =>
    intro acc
    rw [List.foldl_cons, frame_foldl_pcm, ih]
    simp [List.flatten_cons, List.map_append, List.flatten_append, List.append_assoc]

theorem pcm_length (input : List (List ℚ)) :
    (buffersTo16BitPCM input).length = 2 * totalLen input := by
  rw [buffersTo16BitPCM_flatten]
  induction input with
  | nil => simp [totalLen]
  | cons f fs ih =>
    simp only [List.flatten_cons, List.map_append, List.flatten_append, List.length_append,
      totalLen, List.map_cons, List.sum_cons] at ih ⊢
    have hf : ((f.map fun s => i16le (toInt16 s)).flatten).length = 2 * f.length := by
      induction f with
      | nil => simp
      | cons a as iha =>
        simp only [List.map_cons, List.flatten_cons, List.length_append, iha, i16le_length,
          List.length_cons]
        ring
    rw [hf, ih]
    ring

theorem encodeWav_totalLen (frames : List (List ℚ)) (sr nc : ℕ) :
    encodeWav frames (totalLen frames) sr nc
      = some (writeString "RIFF" ++ u32le (36 + totalLen frames * 2) ++ writeString "WAVE" ++
          writeString "fmt " ++ u32le 16 ++ u16le 1 ++ u16le nc ++ u32le sr ++
          u32le (sr * 4) ++ u16le (nc * 2) ++ u16le 16 ++ writeString "data" ++
          u32le (totalLen frames * 2) ++ buffersTo16BitPCM frames) := by
  have hlen := pcm_length frames
  rw [encodeWav, if_pos (by omega)]
  have hz : totalLen frames * 2 - (buffersTo16BitPCM frames).length = 0 := by omega
  rw [hz, List.replicate_zero, List.append_nil]

theorem toInt16_zero : toInt16 0 = 0 := by
  unfold toInt16 clampSample jsTrunc
  norm_num

theorem toInt16_half : toInt16 (1 / 2) = 16383 := by
  unfold toInt16 clampSample jsTrunc
  norm_num

theorem toInt16_neg_half : toInt16 (-(1 / 2)) = -16383 := by
  unfold toInt16 clampSample jsTrunc
  norm_num [Int.ceil_eq_iff]

theorem toInt16_one : toInt16 1 = 32767 := by
  unfold toInt16 clampSample jsTrunc
  norm_num

theorem toInt16_neg_one : toInt16 (-1) = -32767 := by
  unfold toInt16 clampSample jsTrunc
  norm_num [Int.ceil_eq_iff]

theorem writeString_RIFF : writeString "RIFF" = [82, 73, 70, 70] := by decide

theorem writeString_WAVE : writeString "WAVE" = [87, 65, 86, 69] := by decide

theorem writeString_fmt : writeString "fmt " = [102, 109, 116, 32] := by decide

theorem writeString_data : writeString "data" = [100, 97, 116, 97] := by decide

/-- The PCM bytes of the concrete scenario with frames one half, minus one
half, one, minus one: truncation toward zero gives 16383, -16383, 32767,
-32767, stored little-endian. -/
theorem pcmBytes_scenario :
    buffersTo16BitPCM [[(1 : ℚ) / 2, -(1 / 2)], [1, -1]]
      = [255, 63, 1, 192, 255, 127, 1, 128] := by
  rw [buffersTo16BitPCM_flatten]
  have e1 : ([[(1 : ℚ) / 2, -(1 / 2)], [1, -1]] : List (List ℚ)).flatten
      = [(1 : ℚ) / 2, -(1 / 2), 1, -1] := rfl
  rw [e1]
  simp only [List.map_cons, List.map_nil, toInt16_half, toInt16_neg_half, toInt16_one,
    toInt16_neg_one]
  decide

/-! Claim theorems. -/

/-- Claim C1: the encoder converts every input float sample by clamping to
the interval from -1 to 1, multiplying by 32767 and truncating toward zero
(on the clamped interval this equals truncating s * 32767 directly), writes
the two bytes little-endian, walks frames in arrival order and samples of a
frame in array order (the emitted byte list is the flattening, in order, of
the per-sample byte pairs), and for s between -1 and 1 the written value
lies between -32767 and 32767. -/
theorem c1_sample_conversion (input : List (List ℚ)) (s : ℚ)
    (h1 : -1 ≤ s) (h2 : s ≤ 1) :
    buffersTo16BitPCM input = (input.flatten.map fun x => i16le (toInt16 x)).flatten ∧
    toInt16 s = jsTrunc (s * 32767) ∧
    i16le (toInt16 s) = [((toInt16 s) % 65536).toNat % 256, ((toInt16 s) % 65536).toNat / 256] ∧
    -32767 ≤ toInt16 s ∧ toInt16 s ≤ 32767 := by
  have hcl : clampSample s = s := by
    unfold clampSample
    rw [min_eq_right h2, max_eq_right h1]
  refine ⟨buffersTo16BitPCM_flatten input, by rw [toInt16, hcl], rfl, ?_, ?_⟩
  · rw [toInt16, hcl, jsTrunc]
    split
    · rw [Int.le_floor]
      push_cast
      nlinarith
    · have h3 := Int.le_ceil (s * 32767)
      have h5 : ((-32767 : ℤ) : ℚ) ≤ (⌈s * 32767⌉ : ℚ) := by push_cast; nlinarith
      exact_mod_cast h5
  · rw [toInt16, hcl, jsTrunc]
    split
    · have h3 := Int.floor_le (s * 32767)
      have h5 : ((⌊s * 32767⌋ : ℤ) : ℚ) ≤ ((32767 : ℤ) : ℚ) := by push_cast; nlinarith
      exact_mod_cast h5
    · rw [Int.ceil_le]
      push_cast
      nlinarith

/-- Witness for C1 at the concrete sample one half inside a one-frame input. -/
theorem c1_sample_conversion_witness :
    (-1 ≤ (1 : ℚ) / 2 ∧ (1 : ℚ) / 2 ≤ 1) ∧
    (buffersTo16BitPCM [[(1 : ℚ) / 2]]
        = ([[(1 : ℚ) / 2]].flatten.map fun x => i16le (toInt16 x)).flatten ∧
      toInt16 ((1 : ℚ) / 2) = jsTrunc ((1 : ℚ) / 2 * 32767) ∧
      i16le (toInt16 ((1 : ℚ) / 2))
        = [((toInt16 ((1 : ℚ) / 2)) % 65536).toNat % 256,
            ((toInt16 ((1 : ℚ) / 2)) % 65536).toNat / 256] ∧
      -32767 ≤ toInt16 ((1 : ℚ) / 2) ∧ toInt16 ((1 : ℚ) / 2) ≤ 32767) :=
  ⟨⟨by norm_num, by norm_num⟩,
    c1_sample_conversion [[(1 : ℚ) / 2]] ((1 : ℚ) / 2) (by norm_num) (by norm_num)⟩

/-- Claim C8: processing an exportWav command leaves the accumulator state
unchanged: the worker state after the command, and in particular the frame
list and the running sample count, are exactly what they were before. -/
theorem c8_export_preserves_accumulator (s : WorkerState) (t : String) :
    (onmessage s (exportMsg t)).1 = s ∧
    (onmessage s (exportMsg t)).1.recBuffers = s.recBuffers ∧
    (onmessage s (exportMsg t)).1.recLength = s.recLength :=
  ⟨rfl, rfl, rfl⟩

/-- Claim C10: a message whose command tag matches none of the four switch
cases falls through the onmessage switch: the worker state is unchanged and
no response is posted. -/
theorem c10_unknown_command_ignored (s : WorkerState) (msg : WMessage)
    (h1 : msg.command ≠ "init") (h2 : msg.command ≠ "record")
    (h3 : msg.command ≠ "exportWav") (h4 : msg.command ≠ "clear") :
    onmessage s msg = (s, none) := by
  unfold onmessage
  rw [if_neg h1, if_neg h2, if_neg h3, if_neg h4]

/-- Witness for C10 at the concrete unknown command tag stop. -/
theorem c10_unknown_command_ignored_witness :
    (("stop" : String) ≠ "init" ∧ ("stop" : String) ≠ "record" ∧
      ("stop" : String) ≠ "exportWav" ∧ ("stop" : String) ≠ "clear") ∧
    onmessage initialWorker { command := "stop" } = (initialWorker, none) :=
  ⟨⟨by decide, by decide, by decide, by decide⟩,
    c10_unknown_command_ignored initialWorker { command := "stop" }
      (by decide) (by decide) (by decide) (by decide)⟩

/-- Claim C6: the accumulator invariant, recLength equals the sum of the
lengths of the held frames (hence recLength, a sum of lengths, is never
negative), is preserved by every command; record appends the frame and adds
its length to recLength; clear empties the frame list and resets recLength
to 0. -/
theorem c6_accumulator_invariant (s : WorkerState) (msg : WMessage)
    (h : accInvariant s) :
    accInvariant (onmessage s msg).1 ∧
    (record s msg.buffer).recBuffers = s.recBuffers ++ [msg.buffer] ∧
    (record s msg.buffer).recLength = s.recLength + msg.buffer.length ∧
    (clear s).recBuffers = [] ∧
    (clear s).recLength = 0 := by
  refine ⟨?_, rfl, rfl, rfl, rfl⟩
  unfold onmessage
  split_ifs
  · simpa [accInvariant, init] using h
  · simp only [accInvariant, record, totalLen, List.map_append, List.sum_append,
      List.map_cons, List.sum_cons, List.map_nil, List.sum_nil] at h ⊢
    omega
  · exact h
  · simp [accInvariant, clear, totalLen]
  · exact h

/-- Witness for C6 at the initial worker state and a concrete record
message carrying a one-sample frame. -/
theorem c6_accumulator_invariant_witness :
    accInvariant initialWorker ∧
    (accInvariant (onmessage initialWorker { command := "record", buffer := [(0 : ℚ)] }).1 ∧
      (record initialWorker ({ command := "record", buffer := [(0 : ℚ)] } : WMessage).buffer).recBuffers
        = initialWorker.recBuffers ++ [({ command := "record", buffer := [(0 : ℚ)] } : WMessage).buffer] ∧
      (record initialWorker ({ command := "record", buffer := [(0 : ℚ)] } : WMessage).buffer).recLength
        = initialWorker.recLength + ({ command := "record", buffer := [(0 : ℚ)] } : WMessage).buffer.length ∧
      (clear initialWorker).recBuffers = [] ∧
      (clear initialWorker).recLength = 0) :=
  ⟨rfl, c6_accumulator_invariant initialWorker { command := "record", buffer := [(0 : ℚ)] } rfl⟩

/-- Claim C2, counterexample: with one frame of one sample (N = 1) and
numChannels = 2, the encoded output has 46 bytes, not 44 + N * C * 2 = 48:
the data size written by the source is recLength * 2 with no channel
factor. -/
theorem c2_counterexample :
    (encodeWav [[(0 : ℚ)]] 1 8000 2).map List.length = some 46 ∧
    (46 : ℕ) ≠ 44 + 1 * 2 * 2 := by
  have hb : buffersTo16BitPCM [[(0 : ℚ)]] = [0, 0] := by
    rw [buffersTo16BitPCM_flatten]
    simp only [List.flatten_cons, List.flatten_nil, List.append_nil, List.map_cons,
      List.map_nil, toInt16_zero]
    decide
  unfold encodeWav
  rw [hb]
  decide

/-- Claim C2 as amended: for every sequence of frames with total sample
count N the encoder succeeds and returns exactly 44 + N * 2 bytes, with the
32-bit little-endian Subchunk2Size field at byte offset 40 equal to N * 2
(the source applies no numChannels factor, so the claimed 44 + N * C * 2
holds only for C = 1, the channel count this application fixes); for zero
frames the result is a well-formed 44-byte header with data size 0. -/
theorem c2_encode_length (frames : List (List ℚ)) (sr nc : ℕ) :
    (∃ bytes, encodeWav frames (totalLen frames) sr nc = some bytes ∧
      bytes.length = 44 + totalLen frames * 2 ∧
      (bytes.drop 40).take 4 = u32le (totalLen frames * 2)) ∧
    (∃ hdr, encodeWav [] 0 sr nc = some hdr ∧ hdr.length = 44 ∧
      (hdr.drop 40).take 4 = u32le 0) := by
  constructor
  · refine ⟨_, encodeWav_totalLen frames sr nc, ?_, ?_⟩
    · simp only [List.length_append, pcm_length, writeString_RIFF, writeString_WAVE,
        writeString_fmt, writeString_data, u32le, u16le, List.length_cons, List.length_nil]
      omega
    · rw [writeString_RIFF, writeString_WAVE, writeString_fmt, writeString_data,
        u32le, u32le, u32le, u32le, u32le, u16le, u16le, u16le, u16le]
      rfl
  · refine ⟨_, encodeWav_totalLen [] sr nc, ?_, ?_⟩
    · simp only [List.length_append, pcm_length, writeString_RIFF, writeString_WAVE,
        writeString_fmt, writeString_data, u32le, u16le, List.length_cons, List.length_nil]
      simp [totalLen]
    · rw [writeString_RIFF, writeString_WAVE, writeString_fmt, writeString_data,
        u32le, u32le, u32le, u32le, u32le, u16le, u16le, u16le, u16le]
      rfl

/-- Claim C3: the source writes sampleRate * 4 into the ByteRate field at
byte offset 28, contradicting both the WAV layout required by the spec and
the comment in the source itself (byte rate = sample rate times block
align, with block align written as numChannels * 2 at offset 32).  At the
failing input sampleRate = 8000, numChannels = 1 the field holds 32000
where the claim requires 8000 * 1 * 2 = 16000. -/
theorem c3_byte_rate_field :
    (encodeWav [] 0 8000 1).map (fun b => (b.drop 28).take 4) = some (u32le (8000 * 4)) ∧
    u32le (8000 * 4) = [0, 125, 0, 0] ∧
    u32le (8000 * 1 * 2) = [128, 62, 0, 0] ∧
    ([0, 125, 0, 0] : List ℕ) ≠ [128, 62, 0, 0] := by decide

/-- Claim C7, counterexample: in the concrete scenario (frames one half and
minus one half, then one and minus one; recLength 4; sampleRate 8000;
numChannels 1) the sample bytes at offset 44 are 255, 63, 1, 192, 255, 127,
1, 128 (the little-endian int16 values 16383, -16383, 32767, -32767), not
the claimed 0, 64, 0, 192, 255, 127, 1, 128: truncation toward zero of
16383.5 gives 16383, not 16384, and of -16383.5 gives -16383, not
-16384. -/
theorem c7_counterexample :
    (encodeWav [[(1 : ℚ) / 2, -(1 / 2)], [1, -1]] 4 8000 1).map (fun b => b.drop 44)
      = some [255, 63, 1, 192, 255, 127, 1, 128] ∧
    ([255, 63, 1, 192, 255, 127, 1, 128] : List ℕ)
      ≠ [0, 64, 0, 192, 255, 127, 1, 128] := by
  constructor
  · unfold encodeWav
    rw [pcmBytes_scenario]
    decide
  · decide

/-- Claim C7 as amended: the concrete scenario produces a 52-byte blob with
data size 8 and sample bytes, as little-endian int16 pairs, 255 63, 1 192,
255 127, 1 128 in that order, that is the values 16383, -16383, 32767,
-32767 given by the truncate-toward-zero rule. -/
theorem c7_concrete_scenario :
    (encodeWav [[(1 : ℚ) / 2, -(1 / 2)], [1, -1]] 4 8000 1).map List.length = some 52 ∧
    (encodeWav [[(1 : ℚ) / 2, -(1 / 2)], [1, -1]] 4 8000 1).map (fun b => (b.drop 40).take 4)
      = some [8, 0, 0, 0] ∧
    (encodeWav [[(1 : ℚ) / 2, -(1 / 2)], [1, -1]] 4 8000 1).map (fun b => b.drop 44)
      = some [255, 63, 1, 192, 255, 127, 1, 128] := by
  refine ⟨?_, ?_, ?_⟩ <;> (unfold encodeWav; rw [pcmBytes_scenario]; decide)

theorem onmessage_initMsg (s : WorkerState) (cfg : RecConfig) :
    onmessage s (initMsg cfg) = (init s cfg, none) := rfl

theorem onmessage_recordMsg (s : WorkerState) (buf : List ℚ) :
    onmessage s (recordMsg buf) = (record s buf, none) := rfl

theorem onmessage_exportMsg (s : WorkerState) (t : String) :
    onmessage s (exportMsg t) = (s, exportWav s t) := rfl

theorem runWorker_recordMsgs (s : WorkerState) (frames : List (List ℚ))
    (rest : List WMessage) :
    runWorker s (frames.map recordMsg ++ rest)
      = runWorker { s with recBuffers := s.recBuffers ++ frames,
                           recLength := s.recLength + totalLen frames } rest := by
  induction frames generalizing s with
  | nil => simp [totalLen]
  | cons f fs ih =>
    rw [List.map_cons, List.cons_append, runWorker, onmessage_recordMsg]
    have hrec : record s f
        = { s with recBuffers := s.recBuffers ++ [f], recLength := s.recLength + f.length } :=
      rfl
    rw [hrec, ih]
    have hst : ({ s with recBuffers := s.recBuffers ++ [f], recLength := s.recLength + f.length }
          : WorkerState).recBuffers ++ fs = s.recBuffers ++ (f :: fs) := by
      simp
    have hln : ({ s with recBuffers := s.recBuffers ++ [f], recLength := s.recLength + f.length }
          : WorkerState).recLength + totalLen fs = s.recLength + totalLen (f :: fs) := by
      simp [totalLen]
      omega
    simp only at hst hln
    rw [hst, hln]
    simp [Option.toList]

/-- Claim C4: commands are delivered and processed strictly in send order,
so for any sequence of N record commands sent before one exportWav command,
the export is processed after all of them: the snapshot it encodes holds
exactly those N frames, in send order, and the single posted response is
the encoding of exactly that frame list. -/
theorem c4_fifo_record_then_export (cfg : RecConfig) (frames : List (List ℚ)) (t : String) :
    ∃ bytes, encodeWav frames (totalLen frames) cfg.sampleRate cfg.numChannels = some bytes ∧
      runWorker initialWorker (initMsg cfg :: (frames.map recordMsg ++ [exportMsg t]))
        = ({ recLength := totalLen frames, recBuffers := frames,
             sampleRate := cfg.sampleRate, numChannels := cfg.numChannels },
           [{ command := "exportWav", data := bytes, type := t }]) := by
  refine ⟨_, encodeWav_totalLen frames cfg.sampleRate cfg.numChannels, ?_⟩
  rw [runWorker, onmessage_initMsg]
  have hinit : init initialWorker cfg
      = { recLength := 0, recBuffers := [], sampleRate := cfg.sampleRate,
          numChannels := cfg.numChannels } := rfl
  rw [hinit, runWorker_recordMsgs]
  simp only [List.nil_append, Nat.zero_add]
  rw [runWorker, onmessage_exportMsg, runWorker]
  simp [exportWav, encodeWav_totalLen frames cfg.sampleRate cfg.numChannels, Option.toList]

/-- Claim C5, counterexample: two overlapping export requests (ids 1 then
2) followed by the two worker responses, which arrive in request order
(blob 10 answers request 1, blob 20 answers request 2): the handler pops
the callback stack LIFO, so request 2 receives blob 10 and request 1
receives blob 20; the claimed per-request correlation, which would deliver
pairs (1, 10) and (2, 20), fails. -/
theorem c5_counterexample :
    (runService idleService [ServiceEvent.stopCall 1, ServiceEvent.stopCall 2,
        ServiceEvent.workerResponse 10, ServiceEvent.workerResponse 20]).delivered
      = [(2, 10), (1, 20)] ∧
    ([(2, 10), (1, 20)] : List (ℕ × ℕ)) ≠ [(1, 10), (2, 20)] := by decide

/-- Claim C5 as amended: responses are matched to pending callbacks by
command tag only, popped LIFO from a stack, so correlation is correct
exactly when at most one export is outstanding: a single request receives
its own blob, while two overlapping requests receive each other in crossed
order (the first response goes to the second requester and the second to
the first). -/
theorem c5_lifo_correlation (i j b1 b2 : ℕ) :
    (runService idleService [ServiceEvent.stopCall i,
        ServiceEvent.workerResponse b1]).delivered = [(i, b1)] ∧
    (runService idleService [ServiceEvent.stopCall i, ServiceEvent.stopCall j,
        ServiceEvent.workerResponse b1, ServiceEvent.workerResponse b2]).delivered
      = [(j, b1), (i, b2)] :=
  ⟨rfl, rfl⟩

/-- Claim C9, counterexample: stopRecording performs no state check at all;
called while the service is idle it still pushes an export callback and
posts an exportWav command to the worker (a channel side effect), and no
InvalidState error, indeed no error of any kind, is signalled. -/
theorem c9_counterexample :
    (runService idleService [ServiceEvent.stopCall 0]).posted = ["exportWav"] ∧
    (runService idleService [ServiceEvent.stopCall 0]).errors = [] ∧
    (["exportWav"] : List String) ≠ [] := by decide

/-- Claim C9 as amended: calling stop while Idle signals no error (the
service has no state machine and no InvalidState signal) and it does
produce a channel side effect: exactly one exportWav command is posted to
the worker and the resolve callback is left pending on the stack. -/
theorem c9_stop_while_idle (reqId : ℕ) :
    (runService idleService [ServiceEvent.stopCall reqId]).posted = ["exportWav"] ∧
    (runService idleService [ServiceEvent.stopCall reqId]).errors = [] ∧
    (runService idleService [ServiceEvent.stopCall reqId]).exportCallbacks = [reqId] :=
  ⟨rfl, rfl, rfl⟩

end VoiceRecorder
